import Mathlib

/-!
Verification development for the socket compatibility shim in src/fs/socket.c.
The shim translates guest (Linux-style) socket syscalls to host (WinSock2)
operations.  Definitions below are shallow embeddings of the C functions;
host interactions (WSAEnumNetworkEvents, sendto, WSASendMsg, recvfrom,
connect, socket, CreateEventW, WSAEventSelect, vfs_store_file) are modelled
as oracle parameters describing the host's responses, and the thread's
WSA last-error word is threaded explicitly.
-/

/- Guest (Linux) error numbers, negated on return as in the source.
   Values are the x86 Linux ABI constants declared in the repository's
   common headers (outside src/). -/

def ENOMEM : Int := 12
def EINTR : Int := 4
def EBADF : Int := 9
def EACCES : Int := 13
def EFAULT : Int := 14
def EINVAL : Int := 22
def EMFILE : Int := 24
def ENFILE : Int := 23
def EWOULDBLOCK : Int := 11
def EALREADY : Int := 114
def ENOTSOCK : Int := 88
def EDESTADDRREQ : Int := 89
def EMSGSIZE : Int := 90
def EPROTOTYPE : Int := 91
def ENOPROTOOPT : Int := 92
def EPROTONOSUPPORT : Int := 93
def EOPNOTSUPP : Int := 95
def EAFNOSUPPORT : Int := 97
def EADDRINUSE : Int := 98
def EADDRNOTAVAIL : Int := 99
def ENETDOWN : Int := 100
def ENETUNREACH : Int := 101
def ENETRESET : Int := 102
def ECONNABORTED : Int := 103
def ECONNRESET : Int := 104
def ENOBUFS : Int := 105
def EISCONN : Int := 106
def ENOTCONN : Int := 107
def ETIMEDOUT : Int := 110
def ECONNREFUSED : Int := 111
def ELOOP : Int := 40
def ENAMETOOLONG : Int := 36
def EHOSTUNREACH : Int := 113
def ENOTEMPTY : Int := 39
def ECANCELED : Int := 125
def EINPROGRESS : Int := 115

/- Eio is the guest generic I/O failure code EIO (value 5). -/
def Eio : Int := 5

/- Host (WinSock2) error codes, the platform ABI values. -/

def WSA_NOT_ENOUGH_MEMORY : Int := 8
def WSAEINTR : Int := 10004
def WSAEBADF : Int := 10009
def WSAEACCES : Int := 10013
def WSAEFAULT : Int := 10014
def WSAEINVAL : Int := 10022
def WSAEMFILE : Int := 10024
def WSAEWOULDBLOCK : Int := 10035
def WSAEALREADY : Int := 10037
def WSAENOTSOCK : Int := 10038
def WSAEDESTADDRREQ : Int := 10039
def WSAEMSGSIZE : Int := 10040
def WSAEPROTOTYPE : Int := 10041
def WSAENOPROTOOPT : Int := 10042
def WSAEPROTONOSUPPORT : Int := 10043
def WSAESOCKTNOSUPPORT : Int := 10044
def WSAEOPNOTSUPP : Int := 10045
def WSAEPFNOSUPPORT : Int := 10046
def WSAEAFNOSUPPORT : Int := 10047
def WSAEADDRINUSE : Int := 10048
def WSAEADDRNOTAVAIL : Int := 10049
def WSAENETDOWN : Int := 10050
def WSAENETUNREACH : Int := 10051
def WSAENETRESET : Int := 10052
def WSAECONNABORTED : Int := 10053
def WSAECONNRESET : Int := 10054
def WSAENOBUFS : Int := 10055
def WSAEISCONN : Int := 10056
def WSAENOTCONN : Int := 10057
def WSAETIMEDOUT : Int := 10060
def WSAECONNREFUSED : Int := 10061
def WSAELOOP : Int := 10062
def WSAENAMETOOLONG : Int := 10063
def WSAEHOSTDOWN : Int := 10064
def WSAEHOSTUNREACH : Int := 10065
def WSAENOTEMPTY : Int := 10066
def WSAECANCELLED : Int := 10103

/-- Embedding of translate_socket_error (socket.c lines 18-63).
The C function is a switch over the host error code returning the negated
guest code; the default branch logs the unmapped code and returns -EIO.
The Bool component records whether the log_error call in the default
branch ran (the function's only side effect). -/
def translate_socket_error_impl (error : Int) : Int × Bool :=
  if error = WSA_NOT_ENOUGH_MEMORY then (- ENOMEM, false)
  else if error = WSAEINTR then (- EINTR, false)
  else if error = WSAEBADF then (- EBADF, false)
  else if error = WSAEACCES then (- EACCES, false)
  else if error = WSAEFAULT then (- EFAULT, false)
  else if error = WSAEINVAL then (- EINVAL, false)
  else if error = WSAEMFILE then (- EMFILE, false)
  else if error = WSAEWOULDBLOCK then (- EWOULDBLOCK, false)
  else if error = WSAEALREADY then (- EALREADY, false)
  else if error = WSAENOTSOCK then (- ENOTSOCK, false)
  else if error = WSAEDESTADDRREQ then (- EDESTADDRREQ, false)
  else if error = WSAEMSGSIZE then (- EMSGSIZE, false)
  else if error = WSAEPROTOTYPE then (- EPROTOTYPE, false)
  else if error = WSAENOPROTOOPT then (- ENOPROTOOPT, false)
  else if error = WSAEPROTONOSUPPORT then (- EPROTONOSUPPORT, false)
  else if error = WSAESOCKTNOSUPPORT then (- EPROTONOSUPPORT, false)
  else if error = WSAEOPNOTSUPP then (- EOPNOTSUPP, false)
  else if error = WSAEPFNOSUPPORT then (- EAFNOSUPPORT, false)
  else if error = WSAEAFNOSUPPORT then (- EAFNOSUPPORT, false)
  else if error = WSAEADDRINUSE then (- EADDRINUSE, false)
  else if error = WSAEADDRNOTAVAIL then (- EADDRNOTAVAIL, false)
  else if error = WSAENETDOWN then (- ENETDOWN, false)
  else if error = WSAENETUNREACH then (- ENETUNREACH, false)
  else if error = WSAENETRESET then (- ENETRESET, false)
  else if error = WSAECONNABORTED then (- ECONNABORTED, false)
  else if error = WSAECONNRESET then (- ECONNRESET, false)
  else if error = WSAENOBUFS then (- ENOBUFS, false)
  else if error = WSAEISCONN then (- EISCONN, false)
  else if error = WSAENOTCONN then (- ENOTCONN, false)
  else if error = WSAETIMEDOUT then (- ETIMEDOUT, false)
  else if error = WSAECONNREFUSED then (- ECONNREFUSED, false)
  else if error = WSAELOOP then (- ELOOP, false)
  else if error = WSAENAMETOOLONG then (- ENAMETOOLONG, false)
  else if error = WSAEHOSTDOWN then (- ETIMEDOUT, false)
  else if error = WSAEHOSTUNREACH then (- EHOSTUNREACH, false)
  else if error = WSAENOTEMPTY then (- ENOTEMPTY, false)
  else if error = WSAECANCELLED then (- ECANCELED, false)
  else (- Eio, true)

/-- Return value of translate_socket_error, dropping the log flag. -/
def translate_socket_error (error : Int) : Int :=
  (translate_socket_error_impl error).1

/-- The error mapping table of translate_socket_error: one entry per case
label of the switch, pairing the host code with its documented guest code. -/
def socket_error_table : List (Int × Int) :=
  [(WSA_NOT_ENOUGH_MEMORY, - ENOMEM),
   (WSAEINTR, - EINTR),
   (WSAEBADF, - EBADF),
   (WSAEACCES, - EACCES),
   (WSAEFAULT, - EFAULT),
   (WSAEINVAL, - EINVAL),
   (WSAEMFILE, - EMFILE),
   (WSAEWOULDBLOCK, - EWOULDBLOCK),
   (WSAEALREADY, - EALREADY),
   (WSAENOTSOCK, - ENOTSOCK),
   (WSAEDESTADDRREQ, - EDESTADDRREQ),
   (WSAEMSGSIZE, - EMSGSIZE),
   (WSAEPROTOTYPE, - EPROTOTYPE),
   (WSAENOPROTOOPT, - ENOPROTOOPT),
   (WSAEPROTONOSUPPORT, - EPROTONOSUPPORT),
   (WSAESOCKTNOSUPPORT, - EPROTONOSUPPORT),
   (WSAEOPNOTSUPP, - EOPNOTSUPP),
   (WSAEPFNOSUPPORT, - EAFNOSUPPORT),
   (WSAEAFNOSUPPORT, - EAFNOSUPPORT),
   (WSAEADDRINUSE, - EADDRINUSE),
   (WSAEADDRNOTAVAIL, - EADDRNOTAVAIL),
   (WSAENETDOWN, - ENETDOWN),
   (WSAENETUNREACH, - ENETUNREACH),
   (WSAENETRESET, - ENETRESET),
   (WSAECONNABORTED, - ECONNABORTED),
   (WSAECONNRESET, - ECONNRESET),
   (WSAENOBUFS, - ENOBUFS),
   (WSAEISCONN, - EISCONN),
   (WSAENOTCONN, - ENOTCONN),
   (WSAETIMEDOUT, - ETIMEDOUT),
   (WSAECONNREFUSED, - ECONNREFUSED),
   (WSAELOOP, - ELOOP),
   (WSAENAMETOOLONG, - ENAMETOOLONG),
   (WSAEHOSTDOWN, - ETIMEDOUT),
   (WSAEHOSTUNREACH, - EHOSTUNREACH),
   (WSAENOTEMPTY, - ENOTEMPTY),
   (WSAECANCELLED, - ECANCELED)]

/-- C7: the error translator is a deterministic total function.  Every host
code present in the mapping table is translated to exactly its documented
guest code with no log emitted, and every host code not in the table is
translated to the generic I/O failure code -EIO with a log entry emitted.
Determinism and totality hold because translate_socket_error_impl is a
Lean function defined on all of Int. -/
theorem translate_socket_error_total_spec :
    (∀ p ∈ socket_error_table, translate_socket_error_impl p.1 = (p.2, false)) ∧
    (∀ e : Int, e ∉ socket_error_table.map Prod.fst →
      translate_socket_error_impl e = (- Eio, true)) := by
  constructor
  · decide
  · intro e he
    have hne : ∀ c ∈ socket_error_table.map Prod.fst, e ≠ c :=
      fun c hc h => he (by rw [h]; exact hc)
    unfold translate_socket_error_impl
    rw [if_neg (hne WSA_NOT_ENOUGH_MEMORY (by decide)),
      if_neg (hne WSAEINTR (by decide)),
      if_neg (hne WSAEBADF (by decide)),
      if_neg (hne WSAEACCES (by decide)),
      if_neg (hne WSAEFAULT (by decide)),
      if_neg (hne WSAEINVAL (by decide)),
      if_neg (hne WSAEMFILE (by decide)),
      if_neg (hne WSAEWOULDBLOCK (by decide)),
      if_neg (hne WSAEALREADY (by decide)),
      if_neg (hne WSAENOTSOCK (by decide)),
      if_neg (hne WSAEDESTADDRREQ (by decide)),
      if_neg (hne WSAEMSGSIZE (by decide)),
      if_neg (hne WSAEPROTOTYPE (by decide)),
      if_neg (hne WSAENOPROTOOPT (by decide)),
      if_neg (hne WSAEPROTONOSUPPORT (by decide)),
      if_neg (hne WSAESOCKTNOSUPPORT (by decide)),
      if_neg (hne WSAEOPNOTSUPP (by decide)),
      if_neg (hne WSAEPFNOSUPPORT (by decide)),
      if_neg (hne WSAEAFNOSUPPORT (by decide)),
      if_neg (hne WSAEADDRINUSE (by decide)),
      if_neg (hne WSAEADDRNOTAVAIL (by decide)),
      if_neg (hne WSAENETDOWN (by decide)),
      if_neg (hne WSAENETUNREACH (by decide)),
      if_neg (hne WSAENETRESET (by decide)),
      if_neg (hne WSAECONNABORTED (by decide)),
      if_neg (hne WSAECONNRESET (by decide)),
      if_neg (hne WSAENOBUFS (by decide)),
      if_neg (hne WSAEISCONN (by decide)),
      if_neg (hne WSAENOTCONN (by decide)),
      if_neg (hne WSAETIMEDOUT (by decide)),
      if_neg (hne WSAECONNREFUSED (by decide)),
      if_neg (hne WSAELOOP (by decide)),
      if_neg (hne WSAENAMETOOLONG (by decide)),
      if_neg (hne WSAEHOSTDOWN (by decide)),
      if_neg (hne WSAEHOSTUNREACH (by decide)),
      if_neg (hne WSAENOTEMPTY (by decide)),
      if_neg (hne WSAECANCELLED (by decide))]

/-- Witness for C7 at concrete inputs: WSAECONNRESET is in the table and maps
to -ECONNRESET without logging; 9999 is not in the table and maps to -EIO
with a log entry. -/
theorem translate_socket_error_total_spec_witness :
    translate_socket_error_impl WSAECONNRESET = (- ECONNRESET, false) ∧
    translate_socket_error_impl 9999 = (- Eio, true) :=
  ⟨translate_socket_error_total_spec.1 (WSAECONNRESET, - ECONNRESET) (by decide),
   translate_socket_error_total_spec.2 9999 (by decide)⟩

/- WinSock FD event class bits (host ABI values) and guest flag constants
   (guest ABI values from the repository's common headers, outside src/). -/

def FD_READ : Nat := 1
def FD_WRITE : Nat := 2
def FD_ACCEPT : Nat := 8
def FD_CONNECT : Nat := 16
def FD_CLOSE : Nat := 32

def O_NONBLOCK : Nat := 2048
def O_CLOEXEC : Nat := 524288
def LINUX_MSG_PEEK : Nat := 2
def LINUX_MSG_DONTWAIT : Nat := 64

/-- Embedding of the C expression x AND-NOT m (the statements of the form
events &= ~FD_READ in the source).  Written with xor of the common bits so
that it evaluates by kernel reduction; bitClear_testBit below proves it
clears exactly the bits of m. -/
def bitClear (x m : Nat) : Nat := x ^^^ (x &&& m)

theorem bitClear_testBit (x m : Nat) (i : Nat) :
    (bitClear x m).testBit i = (x.testBit i && !(m.testBit i)) := by
  simp only [bitClear, Nat.testBit_xor, Nat.testBit_land]
  cases x.testBit i <;> cases m.testBit i <;> rfl

theorem bitClear_land_self (x m : Nat) : bitClear x m &&& m = 0 := by
  apply Nat.eq_of_testBit_eq
  intro i
  simp only [Nat.testBit_land, bitClear_testBit, Nat.zero_testBit]
  cases x.testBit i <;> cases m.testBit i <;> rfl

theorem land_middle_zero (a b c : Nat) (h : a &&& c = 0) : a &&& b &&& c = 0 := by
  apply Nat.eq_of_testBit_eq
  intro i
  have t := congrArg (fun x => x.testBit i) h
  simp only [Nat.testBit_land, Nat.zero_testBit] at t ⊢
  cases ha : a.testBit i <;> cases hb : b.testBit i <;> cases hc : c.testBit i <;>
    simp_all

theorem land_outer_absorb (a b : Nat) : a &&& b &&& a = b &&& a := by
  apply Nat.eq_of_testBit_eq
  intro i
  simp only [Nat.testBit_land]
  cases a.testBit i <;> cases b.testBit i <;> rfl

theorem lor_self_left (a b : Nat) : a ||| (a ||| b) = a ||| b := by
  apply Nat.eq_of_testBit_eq
  intro i
  simp only [Nat.testBit_lor]
  cases a.testBit i <;> cases b.testBit i <;> rfl

theorem lor_eq_trans {a b c : Nat} (h1 : a ||| b = b) (h2 : b ||| c = c) :
    a ||| c = c := by
  apply Nat.eq_of_testBit_eq
  intro i
  have t1 := congrArg (fun x => x.testBit i) h1
  have t2 := congrArg (fun x => x.testBit i) h2
  simp only [Nat.testBit_lor] at t1 t2 ⊢
  cases ha : a.testBit i <;> cases hb : b.testBit i <;> cases hc : c.testBit i <;>
    simp_all

/-- Socket resource state: the mutable fields of struct socket_file that the
claims concern.  The native SOCKET and HANDLE are identified with the host
oracle; base_file bookkeeping (vtable, refcount) is owned by the external
descriptor table. -/
structure SocketFile where
  flags : Nat
  events : Nat
  connect_error : Int
  deriving DecidableEq, Repr

/-- One WSAEnumNetworkEvents outcome: the lNetworkEvents transition mask and
the iErrorCode entry for the FD_CONNECT slot. -/
structure NetworkEvents where
  lNetworkEvents : Nat
  connectError : Int
  deriving DecidableEq, Repr

/-- Outcome of one native transfer call (sendto, WSASendMsg or recvfrom):
either a byte count, or SOCKET_ERROR with the given WSAGetLastError code. -/
inductive WSAResult where
  | ok (bytes : Int)
  | fail (code : Int)
  deriving DecidableEq, Repr

/-- Host oracle: the successive outcomes the host delivers for enumeration
calls and native transfer calls. -/
structure HostBehavior where
  enumEvents : Nat → NetworkEvents
  transferResult : Nat → WSAResult

/-- Per-thread host state: how many enumeration and transfer calls have been
consumed, and the WSA last-error word (read by WSAGetLastError, written by
WSASetLastError and by failing host calls). -/
structure HostState where
  enumCount : Nat
  transferCount : Nat
  lastError : Int
  deriving DecidableEq, Repr

/-- The sticky-bit merge of socket_update_events (socket.c lines 119-131):
each class present in the enumerated transition mask is ORed into the
resource's sticky bitmask, and an FD_CONNECT transition captures its error
code into connect_error.  The five sequential conditional ORs of the C are
expressed as one OR with the union mask. -/
def notif_mask (l : Nat) : Nat :=
  (if l &&& FD_READ ≠ 0 then FD_READ else 0) |||
  (if l &&& FD_WRITE ≠ 0 then FD_WRITE else 0) |||
  (if l &&& FD_ACCEPT ≠ 0 then FD_ACCEPT else 0) |||
  (if l &&& FD_CONNECT ≠ 0 then FD_CONNECT else 0) |||
  (if l &&& FD_CLOSE ≠ 0 then FD_CLOSE else 0)

def merge_events (f : SocketFile) (ne : NetworkEvents) : SocketFile :=
  { flags := f.flags,
    events := f.events ||| notif_mask ne.lNetworkEvents,
    connect_error :=
      if ne.lNetworkEvents &&& FD_CONNECT ≠ 0 then ne.connectError
      else f.connect_error }

/-- Embedding of socket_update_events (socket.c lines 109-140): drain one
enumeration from the host, fold it into the sticky state, and if the caller
asked to report the connect class and the connect bit is set, publish the
captured connect error as the WSA last error and clear the bit and the
stored error.  Returns the new resource state, the new host state, and the
bitmask snapshot taken before the clear (the C return value e). -/
def socket_update_events (hb : HostBehavior) (f : SocketFile) (hs : HostState)
    (error_report_events : Nat) : SocketFile × HostState × Nat :=
  let fm := merge_events f (hb.enumEvents hs.enumCount)
  let hs1 : HostState := { hs with enumCount := hs.enumCount + 1 }
  if error_report_events &&& fm.events &&& FD_CONNECT ≠ 0 then
    ({ fm with events := bitClear fm.events FD_CONNECT, connect_error := 0 },
     { hs1 with lastError := fm.connect_error }, fm.events)
  else
    (fm, hs1, fm.events)

/-- Embedding of socket_wait_event (socket.c lines 161-172): loop calling
socket_update_events; succeed with 0 once the wanted class is observed in
the returned snapshot; fail with -EWOULDBLOCK if the socket is non-blocking
or MSG_DONTWAIT was passed; otherwise block on the event object and retry.
The fuel argument bounds the number of loop iterations; none means the
loop was still running when fuel ran out (a still-blocked wait). -/
def socket_wait_event (hb : HostBehavior) :
    Nat → SocketFile → HostState → Nat → Nat → Option (SocketFile × HostState × Int)
  | 0, _, _, _, _ => none
  | fuel + 1, f, hs, event, flags =>
    match socket_update_events hb f hs event with
    | (f1, hs1, e) =>
      if e &&& event ≠ 0 then some (f1, hs1, 0)
      else if f1.flags &&& O_NONBLOCK ≠ 0 ∨ flags &&& LINUX_MSG_DONTWAIT ≠ 0 then
        some (f1, hs1, - EWOULDBLOCK)
      else
        socket_wait_event hb fuel f1 hs1 event flags

/-- Embedding of socket_sendto (socket.c lines 174-193): wait for the write
class, attempt the native sendto, and on a WSAEWOULDBLOCK failure clear the
sticky FD_WRITE bit of the events bitmask and retry the wait; any other
failure is translated and returned; a non-zero wait result (-EWOULDBLOCK)
exits the loop and is returned.  The unsupported-flag check only logs in
the C and is omitted.  fuel bounds the retry loop, wfuel the inner wait. -/
def socket_sendto (hb : HostBehavior) (wfuel : Nat) :
    Nat → SocketFile → HostState → Nat → Option (SocketFile × HostState × Int)
  | 0, _, _, _ => none
  | fuel + 1, f, hs, flags =>
    match socket_wait_event hb wfuel f hs FD_WRITE flags with
    | none => none
    | some (f1, hs1, r) =>
      if r ≠ 0 then some (f1, hs1, r)
      else
        match hb.transferResult hs1.transferCount with
        | WSAResult.ok n =>
          some (f1, { hs1 with transferCount := hs1.transferCount + 1 }, n)
        | WSAResult.fail err =>
          let hs2 : HostState :=
            { hs1 with transferCount := hs1.transferCount + 1, lastError := err }
          if err ≠ WSAEWOULDBLOCK then
            some (f1, hs2, translate_socket_error err)
          else
            socket_sendto hb wfuel fuel
              { f1 with events := bitClear f1.events FD_WRITE } hs2 flags

/-- Embedding of socket_sendmsg (socket.c lines 195-228): same loop shape as
socket_sendto around WSASendMsg.  The scatter-gather adaptation into WSABUF
and WSAMSG (lines 199-212) preserves segment order and lengths but has no
effect on the modelled state and is omitted.  Note the faithful transcription
of line 225: on a WSAEWOULDBLOCK failure the C clears FD_WRITE in f->flags,
the open-flags word, not in f->events. -/
def socket_sendmsg (hb : HostBehavior) (wfuel : Nat) :
    Nat → SocketFile → HostState → Nat → Option (SocketFile × HostState × Int)
  | 0, _, _, _ => none
  | fuel + 1, f, hs, flags =>
    match socket_wait_event hb wfuel f hs FD_WRITE flags with
    | none => none
    | some (f1, hs1, r) =>
      if r ≠ 0 then some (f1, hs1, r)
      else
        match hb.transferResult hs1.transferCount with
        | WSAResult.ok n =>
          some (f1, { hs1 with transferCount := hs1.transferCount + 1 }, n)
        | WSAResult.fail err =>
          let hs2 : HostState :=
            { hs1 with transferCount := hs1.transferCount + 1, lastError := err }
          if err ≠ WSAEWOULDBLOCK then
            some (f1, hs2, translate_socket_error err)
          else
            socket_sendmsg hb wfuel fuel
              { f1 with flags := bitClear f1.flags FD_WRITE } hs2 flags

/-- Embedding of socket_recvfrom (socket.c lines 230-250): wait for the read
class; unless MSG_PEEK is set, clear the sticky FD_READ bit before the
native recvfrom is attempted; a WSAEWOULDBLOCK failure retries the wait
without further clearing, any other failure is translated and returned. -/
def socket_recvfrom (hb : HostBehavior) (wfuel : Nat) :
    Nat → SocketFile → HostState → Nat → Option (SocketFile × HostState × Int)
  | 0, _, _, _ => none
  | fuel + 1, f, hs, flags =>
    match socket_wait_event hb wfuel f hs FD_READ flags with
    | none => none
    | some (f1, hs1, r) =>
      if r ≠ 0 then some (f1, hs1, r)
      else
        let f2 : SocketFile :=
          if flags &&& LINUX_MSG_PEEK ≠ 0 then f1
          else { f1 with events := bitClear f1.events FD_READ }
        match hb.transferResult hs1.transferCount with
        | WSAResult.ok n =>
          some (f2, { hs1 with transferCount := hs1.transferCount + 1 }, n)
        | WSAResult.fail err =>
          let hs2 : HostState :=
            { hs1 with transferCount := hs1.transferCount + 1, lastError := err }
          if err ≠ WSAEWOULDBLOCK then
            some (f2, hs2, translate_socket_error err)
          else
            socket_recvfrom hb wfuel fuel f2 hs2 flags

/- Guest socket-creation constants (guest ABI values from the repository's
   common headers outside src/) and their Windows counterparts. -/

def LINUX_AF_UNSPEC : Nat := 0
def LINUX_AF_UNIX : Nat := 1
def LINUX_AF_INET : Nat := 2
def LINUX_AF_INET6 : Nat := 10
def LINUX_SOCK_TYPE_MASK : Nat := 15
def LINUX_SOCK_DGRAM : Nat := 2
def LINUX_SOCK_STREAM : Nat := 1
def LINUX_SOCK_RAW : Nat := 3
def LINUX_SOCK_RDM : Nat := 4
def LINUX_SOCK_SEQPACKET : Nat := 5

def AF_UNSPEC : Nat := 0
def AF_UNIX : Nat := 1
def AF_INET : Nat := 2
def AF_INET6 : Nat := 23
def SOCK_STREAM : Nat := 1
def SOCK_DGRAM : Nat := 2
def SOCK_RAW : Nat := 3
def SOCK_RDM : Nat := 4
def SOCK_SEQPACKET : Nat := 5

/-- Host calls made by the lifecycle operations, recorded as a trace so the
theorems can state which native resources an execution created or closed. -/
inductive HostCall where
  | create_socket (af ty proto : Nat)
  | close_socket
  | create_event
  | event_select (mask : Nat)
  | close_event
  deriving DecidableEq, Repr

/-- The address-family switch of sys_socket (socket.c lines 338-346). -/
def translate_af (domain : Nat) : Option Nat :=
  if domain = LINUX_AF_UNSPEC then some AF_UNSPEC
  else if domain = LINUX_AF_UNIX then some AF_UNIX
  else if domain = LINUX_AF_INET then some AF_INET
  else if domain = LINUX_AF_INET6 then some AF_INET6
  else none

/-- The socket-kind switch of sys_socket (socket.c lines 348-358), applied to
the type word masked with LINUX_SOCK_TYPE_MASK. -/
def translate_type (ty : Nat) : Option Nat :=
  if ty = LINUX_SOCK_DGRAM then some SOCK_DGRAM
  else if ty = LINUX_SOCK_STREAM then some SOCK_STREAM
  else if ty = LINUX_SOCK_RAW then some SOCK_RAW
  else if ty = LINUX_SOCK_RDM then some SOCK_RDM
  else if ty = LINUX_SOCK_SEQPACKET then some SOCK_SEQPACKET
  else none

/-- The interest mask passed to WSAEventSelect by init_socket_event
(socket.c line 294). -/
def socket_event_mask : Nat := FD_READ ||| FD_WRITE ||| FD_ACCEPT ||| FD_CONNECT

/-- Embedding of init_socket_event (socket.c lines 282-301): create the
event object and arm it via WSAEventSelect with socket_event_mask; if the
selection fails the event handle is closed again.  The returned option is
the armed notification object, identified with its interest mask; the list
records the host calls performed. -/
def init_socket_event (create_event_ok select_ok : Bool) :
    Option Nat × List HostCall :=
  if create_event_ok then
    if select_ok then
      (some socket_event_mask,
       [HostCall.create_event, HostCall.event_select socket_event_mask])
    else
      (none,
       [HostCall.create_event, HostCall.event_select socket_event_mask,
        HostCall.close_event])
  else
    (none, [HostCall.create_event])

/-- Host oracle for one sys_socket execution: whether the native socket
call succeeds (and its error code when not), whether event creation and
selection succeed, and the descriptor index returned by vfs_store_file. -/
structure SocketHost where
  socket_ok : Bool
  socket_fail_code : Int
  create_event_ok : Bool
  select_ok : Bool
  store_fd : Int
  deriving DecidableEq, Repr

/-- Embedding of sys_socket (socket.c lines 331-396): translate the guest
domain, kind and protocol; unsupported domain fails with -EAFNOSUPPORT,
unsupported kind and non-zero protocol with -EPROTONOSUPPORT, all before
any host call.  Then open the native socket, arm its notification object
(closing the socket again if that fails, returning -ENFILE), allocate the
resource with flags derived from the guest O_NONBLOCK bit, and store it in
the descriptor table, releasing the resource when the store fails.  The
process-wide WinSock startup check has no per-call observable effect on
the modelled state and is omitted.  Result: the syscall return value, the
trace of host calls, and the allocated resource when one was built. -/
def sys_socket (h : SocketHost) (domain ty protocol : Nat) :
    Int × List HostCall × Option SocketFile :=
  match translate_af domain with
  | none => (- EAFNOSUPPORT, [], none)
  | some win32_af =>
    match translate_type (ty &&& LINUX_SOCK_TYPE_MASK) with
    | none => (- EPROTONOSUPPORT, [], none)
    | some win32_type =>
      if protocol ≠ 0 then (- EPROTONOSUPPORT, [], none)
      else if ¬ h.socket_ok then
        (translate_socket_error h.socket_fail_code,
         [HostCall.create_socket win32_af win32_type protocol], none)
      else
        match init_socket_event h.create_event_ok h.select_ok with
        | (none, tr) =>
          (- ENFILE,
           HostCall.create_socket win32_af win32_type protocol ::
             (tr ++ [HostCall.close_socket]), none)
        | (some _armed, tr) =>
          let f : SocketFile :=
            { flags := if ty &&& O_NONBLOCK ≠ 0 then O_NONBLOCK else 0,
              events := 0, connect_error := 0 }
          if h.store_fd < 0 then
            (h.store_fd,
             HostCall.create_socket win32_af win32_type protocol ::
               (tr ++ [HostCall.close_socket, HostCall.close_event]), some f)
          else
            (h.store_fd,
             HostCall.create_socket win32_af win32_type protocol :: tr, some f)

/-- Embedding of sys_connect (socket.c lines 398-428): validate the address
range, resolve the descriptor (resolve_err models a get_sockfd failure),
issue the native connect (connect_result: none for success, some werr for
SOCKET_ERROR with that WSA code).  A non-WSAEWOULDBLOCK failure is
translated and returned; on would-block a non-blocking socket returns
-EINPROGRESS, and a blocking socket waits for the connect class and then
returns WSAGetLastError(), the raw last-error word, untranslated. -/
def sys_connect (hb : HostBehavior) (wfuel : Nat) (addr_readable : Bool)
    (resolve_err : Option Int) (f : SocketFile) (hs : HostState)
    (connect_result : Option Int) : Option (SocketFile × HostState × Int) :=
  if ¬ addr_readable then some (f, hs, - EFAULT)
  else
    match resolve_err with
    | some e => some (f, hs, e)
    | none =>
      match connect_result with
      | none => some (f, hs, 0)
      | some err =>
        let hs1 : HostState := { hs with lastError := err }
        if err ≠ WSAEWOULDBLOCK then
          some (f, hs1, translate_socket_error err)
        else if f.flags &&& O_NONBLOCK ≠ 0 then
          some (f, hs1, - EINPROGRESS)
        else
          match socket_wait_event hb wfuel f hs1 FD_CONNECT 0 with
          | none => none
          | some (f1, hs2, _r) => some (f1, hs2, hs2.lastError)

/- Guest scatter-gather structures.  Sizes are the 32-bit guest ABI layout
   from the repository's common headers outside src/. -/

def sizeof_msghdr : Nat := 28
def sizeof_iovec : Nat := 8
def sizeof_mmsghdr : Nat := 32

/-- One guest iovec segment: base address and length. -/
structure iovec where
  iov_base : Nat
  iov_len : Nat
  deriving DecidableEq, Repr

/-- One guest msghdr: destination name, the address of the iovec array and
its contents, and the control buffer.  msg_iovlen of the C is the length of
msg_iov. -/
structure msghdr where
  msg_name : Nat
  msg_namelen : Nat
  msg_iov_ptr : Nat
  msg_iov : List iovec
  msg_control : Nat
  msg_controllen : Nat
  deriving DecidableEq, Repr

/-- One guest mmsghdr entry: a msghdr plus the per-message transferred byte
count written back by sendmmsg. -/
structure mmsghdr where
  msg_hdr : msghdr
  msg_len : Nat
  deriving DecidableEq, Repr

/-- Embedding of mm_check_read_msghdr (socket.c lines 314-329): the msghdr
struct itself, the iovec array (when non-empty), the control buffer (when
present) and every individual segment's buffer must pass the guest memory
readability check.  can_read is the external memory validator, msg_addr the
guest address of the msghdr struct. -/
def mm_check_read_msghdr (can_read : Nat → Nat → Bool) (msg_addr : Nat)
    (m : msghdr) : Bool :=
  if ¬ can_read msg_addr sizeof_msghdr then false
  else if m.msg_iov.length ≠ 0 ∧
      ¬ can_read m.msg_iov_ptr (sizeof_iovec * m.msg_iov.length) then false
  else if m.msg_controllen ≠ 0 ∧ ¬ can_read m.msg_control m.msg_controllen then
    false
  else m.msg_iov.all fun v => can_read v.iov_base v.iov_len

/-- The validation loop of sys_sendmmsg (socket.c lines 542-547): every
entry of the message vector must pass mm_check_read_msghdr; entry i lives
at msgvec address plus i times sizeof_mmsghdr. -/
def check_msgvec (can_read : Nat → Nat → Bool) (addr : Nat) :
    List mmsghdr → Bool
  | [] => true
  | m :: rest =>
    mm_check_read_msghdr can_read addr m.msg_hdr &&
      check_msgvec can_read (addr + sizeof_mmsghdr) rest

/-- Total byte length of a message: the sum of its iovec segment lengths,
as computed by sys_sendmmsg (socket.c lines 563-565). -/
def iov_total (m : msghdr) : Int :=
  m.msg_iov.foldl (fun acc v => acc + (v.iov_len : Int)) 0

/-- The emulation loop of sys_sendmmsg (socket.c lines 553-569).  send i is
the value returned by the i-th socket_sendmsg call (bytes sent, or a
negative error).  A first message that fails returns its error; a first
message that sends zero bytes returns -EWOULDBLOCK; a later message that
fails or sends nothing returns the index i (messages fully processed); a
processed message stores its byte count into msg_len; a partial send stops
with i+1; exhausting the vector returns its length. -/
def sendmmsg_loop (send : Nat → Int) : Nat → List mmsghdr → Int × List mmsghdr
  | i, [] => ((i : Int), [])
  | i, m :: rest =>
    let len := send i
    if i = 0 ∧ len < 0 then (len, m :: rest)
    else if i = 0 ∧ len = 0 then (- EWOULDBLOCK, m :: rest)
    else if len ≤ 0 then ((i : Int), m :: rest)
    else
      let m1 : mmsghdr := { m with msg_len := len.toNat }
      if len < iov_total m.msg_hdr then (((i : Int) + 1), m1 :: rest)
      else
        let res := sendmmsg_loop send (i + 1) rest
        (res.1, m1 :: res.2)

/-- Embedding of sys_sendmmsg (socket.c lines 537-570): the whole message
vector must be writable guest memory, every entry must pass the read
validation, the descriptor must resolve to a socket (resolve_err models a
get_sockfd failure), and then the messages are sent one by one through
socket_sendmsg, whose successive results are abstracted by send.  Returns
the syscall result together with the message vector as left in guest
memory (msg_len fields of processed entries updated). -/
def sys_sendmmsg (can_read can_write : Nat → Nat → Bool) (msgvec_addr : Nat)
    (msgvec : List mmsghdr) (resolve_err : Option Int) (send : Nat → Int) :
    Int × List mmsghdr :=
  if ¬ can_write msgvec_addr (sizeof_mmsghdr * msgvec.length) then
    (- EFAULT, msgvec)
  else if ¬ check_msgvec can_read msgvec_addr msgvec then (- EFAULT, msgvec)
  else
    match resolve_err with
    | some e => (e, msgvec)
    | none => sendmmsg_loop send 0 msgvec

theorem notif_mask_zero : notif_mask 0 = 0 := by decide

theorem merge_events_empty (f : SocketFile) : merge_events f ⟨0, 0⟩ = f := by
  simp [merge_events, notif_mask_zero,
    show (0 : Nat) &&& FD_CONNECT = 0 from by decide]

theorem update_no_connect_report (hb : HostBehavior) (f : SocketFile)
    (hs : HostState) (er : Nat) (h : er &&& FD_CONNECT = 0) :
    socket_update_events hb f hs er =
      (merge_events f (hb.enumEvents hs.enumCount),
       { hs with enumCount := hs.enumCount + 1 },
       (merge_events f (hb.enumEvents hs.enumCount)).events) := by
  simp only [socket_update_events]
  rw [if_neg (fun hne => hne (land_middle_zero er
    (merge_events f (hb.enumEvents hs.enumCount)).events FD_CONNECT h))]

theorem merge_superset (f : SocketFile) (ne : NetworkEvents) :
    f.events ||| (merge_events f ne).events = (merge_events f ne).events := by
  simp only [merge_events]
  exact lor_self_left _ _

/-- C6: a connect completion is surfaced at most once.  If the readiness
query is asked to report the connect class while the connect-completed bit
is set, it returns a snapshot containing the bit, publishes the captured
connect error as the WSA last error, and clears both the bit and the stored
error; a second query on the resulting state, with the host delivering no
new notifications at either query, returns a snapshot without the bit and
leaves the state and the last error untouched apart from the enumeration
counter. -/
theorem connect_completion_reported_once (hb : HostBehavior) (f : SocketFile)
    (hs : HostState) (hset : f.events &&& FD_CONNECT ≠ 0)
    (hq1 : hb.enumEvents hs.enumCount = ⟨0, 0⟩)
    (hq2 : hb.enumEvents (hs.enumCount + 1) = ⟨0, 0⟩) :
    socket_update_events hb f hs FD_CONNECT =
      ({ f with events := bitClear f.events FD_CONNECT, connect_error := 0 },
       { hs with enumCount := hs.enumCount + 1, lastError := f.connect_error },
       f.events) ∧
    socket_update_events hb
        { f with events := bitClear f.events FD_CONNECT, connect_error := 0 }
        { hs with enumCount := hs.enumCount + 1, lastError := f.connect_error }
        FD_CONNECT =
      ({ f with events := bitClear f.events FD_CONNECT, connect_error := 0 },
       { hs with enumCount := hs.enumCount + 2, lastError := f.connect_error },
       bitClear f.events FD_CONNECT) ∧
    f.events &&& FD_CONNECT ≠ 0 ∧
    bitClear f.events FD_CONNECT &&& FD_CONNECT = 0 := by
  refine ⟨?_, ?_, hset, bitClear_land_self _ _⟩
  · simp only [socket_update_events, hq1, merge_events_empty]
    rw [if_pos (by rw [land_outer_absorb]; exact hset)]
  · simp only [socket_update_events, hq2, merge_events_empty]
    rw [if_neg (by rw [land_outer_absorb, bitClear_land_self]; exact fun h => h rfl)]

def hbQuiet : HostBehavior := ⟨fun _ => ⟨0, 0⟩, fun _ => WSAResult.ok 0⟩

/-- Witness for C6 on a concrete resource whose connect-completed bit is set
with captured error WSAECONNREFUSED and a host that delivers no further
notifications. -/
theorem connect_completion_reported_once_witness :
    socket_update_events hbQuiet ⟨0, 16, 10061⟩ ⟨0, 0, 0⟩ FD_CONNECT =
      (⟨0, 0, 0⟩, ⟨1, 0, 10061⟩, 16) ∧
    socket_update_events hbQuiet ⟨0, 0, 0⟩ ⟨1, 0, 10061⟩ FD_CONNECT =
      (⟨0, 0, 0⟩, ⟨2, 0, 10061⟩, 0) ∧
    (16 : Nat) &&& FD_CONNECT ≠ 0 ∧
    bitClear 16 FD_CONNECT &&& FD_CONNECT = 0 :=
  connect_completion_reported_once hbQuiet ⟨0, 16, 10061⟩ ⟨0, 0, 0⟩
    (by decide) rfl rfl

theorem merge_events_flags (f : SocketFile) (ne : NetworkEvents) :
    (merge_events f ne).flags = f.flags := rfl

theorem wait_not_ready (hb : HostBehavior) (event flags : Nat)
    (hev : event &&& FD_CONNECT = 0) :
    ∀ wfuel (f : SocketFile) (hs : HostState) f1 hs1 r,
      socket_wait_event hb wfuel f hs event flags = some (f1, hs1, r) →
      r ≠ 0 → f1.events &&& event = 0 := by
  intro wfuel
  induction wfuel with
  | zero => intro f hs f1 hs1 r h hr; simp [socket_wait_event] at h
  | succ n ih =>
    intro f hs f1 hs1 r h hr
    rw [socket_wait_event, update_no_connect_report hb f hs event hev] at h
    simp only [merge_events_flags] at h
    by_cases h1 : (merge_events f (hb.enumEvents hs.enumCount)).events &&& event ≠ 0
    · rw [if_pos h1] at h
      obtain ⟨rfl, rfl, rfl⟩ := Prod.mk.injEq .. ▸ (Option.some.injEq .. ▸ h :)
      exact absurd rfl hr
    · rw [if_neg h1] at h
      by_cases h2 : f.flags &&& O_NONBLOCK ≠ 0 ∨ flags &&& LINUX_MSG_DONTWAIT ≠ 0
      · rw [if_pos h2] at h
        obtain ⟨rfl, rfl, rfl⟩ := Prod.mk.injEq .. ▸ (Option.some.injEq .. ▸ h :)
        simpa using h1
      · rw [if_neg h2] at h
        exact ih _ _ _ _ _ h hr

theorem wait_superset (hb : HostBehavior) (event flags : Nat)
    (hev : event &&& FD_CONNECT = 0) :
    ∀ wfuel (f : SocketFile) (hs : HostState) f1 hs1 r,
      socket_wait_event hb wfuel f hs event flags = some (f1, hs1, r) →
      f.events ||| f1.events = f1.events := by
  intro wfuel
  induction wfuel with
  | zero => intro f hs f1 hs1 r h; simp [socket_wait_event] at h
  | succ n ih =>
    intro f hs f1 hs1 r h
    rw [socket_wait_event, update_no_connect_report hb f hs event hev] at h
    simp only [merge_events_flags] at h
    by_cases h1 : (merge_events f (hb.enumEvents hs.enumCount)).events &&& event ≠ 0
    · rw [if_pos h1] at h
      obtain ⟨rfl, rfl, rfl⟩ := Prod.mk.injEq .. ▸ (Option.some.injEq .. ▸ h :)
      exact merge_superset f _
    · rw [if_neg h1] at h
      by_cases h2 : f.flags &&& O_NONBLOCK ≠ 0 ∨ flags &&& LINUX_MSG_DONTWAIT ≠ 0
      · rw [if_pos h2] at h
        obtain ⟨rfl, rfl, rfl⟩ := Prod.mk.injEq .. ▸ (Option.some.injEq .. ▸ h :)
        exact merge_superset f _
      · rw [if_neg h2] at h
        exact lor_eq_trans (merge_superset f _) (ih _ _ _ _ _ h)

theorem recv_nonpeek_aux (hb : HostBehavior) (wfuel : Nat) :
    ∀ fuel (f : SocketFile) (hs : HostState) flags f1 hs1 r,
      flags &&& LINUX_MSG_PEEK = 0 →
      socket_recvfrom hb wfuel fuel f hs flags = some (f1, hs1, r) →
      f1.events &&& FD_READ = 0 := by
  intro fuel
  induction fuel with
  | zero => intro f hs flags f1 hs1 r hp h; simp [socket_recvfrom] at h
  | succ n ih =>
    intro f hs flags f1 hs1 r hp h
    rw [socket_recvfrom] at h
    cases hw : socket_wait_event hb wfuel f hs FD_READ flags with
    | none => rw [hw] at h; simp at h
    | some tup =>
      obtain ⟨fa, hsa, ra⟩ := tup
      rw [hw] at h
      simp only [] at h
      by_cases hr : ra ≠ 0
      · rw [if_pos hr] at h
        obtain ⟨rfl, rfl, rfl⟩ := Prod.mk.injEq .. ▸ (Option.some.injEq .. ▸ h :)
        exact wait_not_ready hb FD_READ flags (by decide) wfuel f hs _ _ _ hw hr
      · rw [if_neg hr, if_neg (show ¬ flags &&& LINUX_MSG_PEEK ≠ 0 by simp [hp])] at h
        cases ht : hb.transferResult hsa.transferCount with
        | ok nn =>
          rw [ht] at h
          simp only [] at h
          obtain ⟨rfl, rfl, rfl⟩ := Prod.mk.injEq .. ▸ (Option.some.injEq .. ▸ h :)
          exact bitClear_land_self fa.events FD_READ
        | fail err =>
          rw [ht] at h
          simp only [] at h
          by_cases he : err ≠ WSAEWOULDBLOCK
          · rw [if_pos he] at h
            obtain ⟨rfl, rfl, rfl⟩ := Prod.mk.injEq .. ▸ (Option.some.injEq .. ▸ h :)
            exact bitClear_land_self fa.events FD_READ
          · rw [if_neg he] at h
            exact ih _ _ _ _ _ _ hp h

theorem recv_peek_aux (hb : HostBehavior) (wfuel : Nat) :
    ∀ fuel (f : SocketFile) (hs : HostState) flags f1 hs1 r,
      flags &&& LINUX_MSG_PEEK ≠ 0 →
      socket_recvfrom hb wfuel fuel f hs flags = some (f1, hs1, r) →
      f.events ||| f1.events = f1.events := by
  intro fuel
  induction fuel with
  | zero => intro f hs flags f1 hs1 r hp h; simp [socket_recvfrom] at h
  | succ n ih =>
    intro f hs flags f1 hs1 r hp h
    rw [socket_recvfrom] at h
    cases hw : socket_wait_event hb wfuel f hs FD_READ flags with
    | none => rw [hw] at h; simp at h
    | some tup =>
      obtain ⟨fa, hsa, ra⟩ := tup
      rw [hw] at h
      simp only [] at h
      have hsub := wait_superset hb FD_READ flags (by decide) wfuel f hs _ _ _ hw
      by_cases hr : ra ≠ 0
      · rw [if_pos hr] at h
        obtain ⟨rfl, rfl, rfl⟩ := Prod.mk.injEq .. ▸ (Option.some.injEq .. ▸ h :)
        exact hsub
      · rw [if_neg hr, if_pos hp] at h
        cases ht : hb.transferResult hsa.transferCount with
        | ok nn =>
          rw [ht] at h
          simp only [] at h
          obtain ⟨rfl, rfl, rfl⟩ := Prod.mk.injEq .. ▸ (Option.some.injEq .. ▸ h :)
          exact hsub
        | fail err =>
          rw [ht] at h
          simp only [] at h
          by_cases he : err ≠ WSAEWOULDBLOCK
          · rw [if_pos he] at h
            obtain ⟨rfl, rfl, rfl⟩ := Prod.mk.injEq .. ▸ (Option.some.injEq .. ▸ h :)
            exact hsub
          · rw [if_neg he] at h
            exact lor_eq_trans hsub (ih _ _ _ _ _ _ hp h)

/-- C5: read-bit discipline of the receive path.  Without MSG_PEEK, the
sticky FD_READ bit is cleared before each native transfer attempt, so any
completed receive (success, translated hard error, or would-block exit)
leaves the resource with FD_READ clear regardless of the transfer outcome,
which shows the clear precedes the transfer rather than following a
successful one.  With MSG_PEEK, the operation itself never clears any
sticky bit: every bit set on entry is still set on exit (the bitmask only
grows by host notifications merged during the wait). -/
theorem recv_read_bit_discipline (hb : HostBehavior) (wfuel : Nat) :
    (∀ fuel (f : SocketFile) (hs : HostState) flags f1 hs1 r,
      flags &&& LINUX_MSG_PEEK = 0 →
      socket_recvfrom hb wfuel fuel f hs flags = some (f1, hs1, r) →
      f1.events &&& FD_READ = 0) ∧
    (∀ fuel (f : SocketFile) (hs : HostState) flags f1 hs1 r,
      flags &&& LINUX_MSG_PEEK ≠ 0 →
      socket_recvfrom hb wfuel fuel f hs flags = some (f1, hs1, r) →
      f.events ||| f1.events = f1.events) :=
  ⟨recv_nonpeek_aux hb wfuel, recv_peek_aux hb wfuel⟩

def hbReadOk : HostBehavior := ⟨fun _ => ⟨FD_READ, 0⟩, fun _ => WSAResult.ok 4⟩

/-- Witness for C5: a concrete non-peek receive ends with FD_READ clear,
and a concrete peek receive retains the sticky read bit. -/
theorem recv_read_bit_discipline_witness :
    (⟨0, 0, 0⟩ : SocketFile).events &&& FD_READ = 0 ∧
    (⟨0, 0, 0⟩ : SocketFile).events ||| (⟨0, 1, 0⟩ : SocketFile).events =
      (⟨0, 1, 0⟩ : SocketFile).events :=
  ⟨(recv_read_bit_discipline hbReadOk 1).1 1 ⟨0, 0, 0⟩ ⟨0, 0, 0⟩ 0
      ⟨0, 0, 0⟩ ⟨1, 1, 0⟩ 4 (by decide) (by decide),
   (recv_read_bit_discipline hbReadOk 1).2 1 ⟨0, 0, 0⟩ ⟨0, 0, 0⟩ LINUX_MSG_PEEK
      ⟨0, 1, 0⟩ ⟨1, 1, 0⟩ 4 (by decide) (by decide)⟩

def hbSendBusy : HostBehavior :=
  ⟨fun _ => ⟨0, 0⟩, fun _ => WSAResult.fail WSAEWOULDBLOCK⟩

def busyWriter : SocketFile := ⟨O_NONBLOCK, FD_WRITE, 0⟩

theorem sendmsg_livelock_aux :
    ∀ fuel (f : SocketFile) (hs : HostState), f.events &&& FD_WRITE ≠ 0 →
      socket_sendmsg hbSendBusy 1 fuel f hs 0 = none := by
  intro fuel
  induction fuel with
  | zero => intro f hs hw; rfl
  | succ n ih =>
    intro f hs hw
    have henum : hbSendBusy.enumEvents hs.enumCount = ⟨0, 0⟩ := rfl
    have hwait : socket_wait_event hbSendBusy 1 f hs FD_WRITE 0 =
        some (f, { hs with enumCount := hs.enumCount + 1 }, 0) := by
      simp only [socket_wait_event, update_no_connect_report hbSendBusy f hs FD_WRITE
        (by decide), henum, merge_events_empty]
      rw [if_pos hw]
    simp only [socket_sendmsg, hwait]
    rw [if_neg (by simp : ¬ (0 : Int) ≠ 0)]
    rw [show hbSendBusy.transferResult
          ({ hs with enumCount := hs.enumCount + 1 } : HostState).transferCount =
        WSAResult.fail WSAEWOULDBLOCK from rfl]
    simp only []
    rw [if_neg (by simp : ¬ WSAEWOULDBLOCK ≠ WSAEWOULDBLOCK)]
    exact ih _ _ hw

/-- C4 (code evaluation): on a would-block host failure socket_sendto
clears the sticky FD_WRITE bit of the events bitmask and the retried wait
then reports -EWOULDBLOCK on the non-blocking socket; socket_sendmsg
instead executes f->flags &= ~FD_WRITE (socket.c line 225), which leaves
the events bitmask untouched, so with the host persistently reporting
WSAEWOULDBLOCK the send loop retries forever: for every fuel bound the
operation fails to terminate, while the identical sendto run terminates
with -EWOULDBLOCK and the write bit cleared. -/
theorem sendmsg_wouldblock_clears_wrong_field :
    (∀ fuel (hs : HostState),
      socket_sendmsg hbSendBusy 1 fuel busyWriter hs 0 = none) ∧
    socket_sendto hbSendBusy 1 2 busyWriter ⟨0, 0, 0⟩ 0 =
      some (⟨O_NONBLOCK, 0, 0⟩, ⟨2, 1, WSAEWOULDBLOCK⟩, - EWOULDBLOCK) ∧
    bitClear busyWriter.flags FD_WRITE = busyWriter.flags ∧
    busyWriter.events &&& FD_WRITE ≠ 0 :=
  ⟨fun fuel hs => sendmsg_livelock_aux fuel busyWriter hs (by decide),
   by decide, by decide, by decide⟩

def hbConnRefused : HostBehavior :=
  ⟨fun _ => ⟨FD_CONNECT, WSAECONNREFUSED⟩, fun _ => WSAResult.ok 0⟩

def hbConnDone : HostBehavior :=
  ⟨fun _ => ⟨FD_CONNECT, 0⟩, fun _ => WSAResult.ok 0⟩

/-- C1 (code evaluation): on a blocking socket whose native connect reports
would-block, sys_connect waits for the connect class and then returns the
raw WSA last-error word.  With a completion error of WSAECONNREFUSED the
syscall returns 10061, a positive host code, not the translated guest code
-ECONNREFUSED that translate_socket_error would give; only the successful
completion (captured error 0) returns 0 as the claim describes. -/
theorem connect_blocking_returns_untranslated_error :
    sys_connect hbConnRefused 1 true none ⟨0, 0, 0⟩ ⟨0, 0, 0⟩
        (some WSAEWOULDBLOCK) =
      some (⟨0, 0, 0⟩, ⟨1, 0, WSAECONNREFUSED⟩, WSAECONNREFUSED) ∧
    translate_socket_error WSAECONNREFUSED = - ECONNREFUSED ∧
    (WSAECONNREFUSED : Int) ≠ - ECONNREFUSED ∧
    0 < WSAECONNREFUSED ∧
    sys_connect hbConnDone 1 true none ⟨0, 0, 0⟩ ⟨0, 0, 0⟩
        (some WSAEWOULDBLOCK) =
      some (⟨0, 0, 0⟩, ⟨1, 0, 0⟩, 0) := by
  refine ⟨by decide, by decide, by decide, by decide, by decide⟩

def hbClose : HostBehavior := ⟨fun _ => ⟨FD_CLOSE, 0⟩, fun _ => WSAResult.ok 0⟩

def okHost : SocketHost := ⟨true, 0, true, true, 3⟩

/-- C3 (code evaluation): the interest mask armed by init_socket_event on
every successful socket creation contains the readable, writable,
acceptable and connect-completed classes but not the peer-closed class
FD_CLOSE, even though socket_update_events merges an FD_CLOSE notification
into the sticky bitmask when one is delivered; a successful sys_socket run
performs exactly this arming. -/
theorem socket_event_arming_omits_close :
    init_socket_event true true =
      (some socket_event_mask,
       [HostCall.create_event, HostCall.event_select socket_event_mask]) ∧
    socket_event_mask &&& FD_READ ≠ 0 ∧
    socket_event_mask &&& FD_WRITE ≠ 0 ∧
    socket_event_mask &&& FD_ACCEPT ≠ 0 ∧
    socket_event_mask &&& FD_CONNECT ≠ 0 ∧
    socket_event_mask &&& FD_CLOSE = 0 ∧
    sys_socket okHost LINUX_AF_INET LINUX_SOCK_STREAM 0 =
      (3, [HostCall.create_socket AF_INET SOCK_STREAM 0, HostCall.create_event,
           HostCall.event_select socket_event_mask], some ⟨0, 0, 0⟩) ∧
    (socket_update_events hbClose ⟨0, 0, 0⟩ ⟨0, 0, 0⟩ 0).1.events &&& FD_CLOSE ≠ 0 := by
  refine ⟨by decide, by decide, by decide, by decide, by decide, by decide,
    by decide, by decide⟩

/-- Counterexample to C8 as stated: a socket call with an unsupported
domain and a non-zero protocol value returns the address-family error, not
protocol-not-supported, because the domain switch runs first. -/
theorem socket_unsupported_domain_nonzero_protocol_counterexample :
    sys_socket okHost 99 LINUX_SOCK_STREAM 5 = (- EAFNOSUPPORT, [], none) ∧
    - EAFNOSUPPORT ≠ - EPROTONOSUPPORT := by
  refine ⟨by decide, by decide⟩

/-- C8 amended: an unsupported domain returns -EAFNOSUPPORT; a supported
domain with an unsupported kind returns -EPROTONOSUPPORT; a supported
domain and kind with a non-zero protocol returns -EPROTONOSUPPORT; in each
case the host-call trace is empty, so no native socket is created. -/
theorem socket_create_validation_amended :
    ∀ (h : SocketHost) (domain ty protocol : Nat),
      (translate_af domain = none →
        sys_socket h domain ty protocol = (- EAFNOSUPPORT, [], none)) ∧
      (translate_af domain ≠ none →
        translate_type (ty &&& LINUX_SOCK_TYPE_MASK) = none →
        sys_socket h domain ty protocol = (- EPROTONOSUPPORT, [], none)) ∧
      (translate_af domain ≠ none →
        translate_type (ty &&& LINUX_SOCK_TYPE_MASK) ≠ none →
        protocol ≠ 0 →
        sys_socket h domain ty protocol = (- EPROTONOSUPPORT, [], none)) := by
  intro h domain ty protocol
  refine ⟨?_, ?_, ?_⟩
  · intro hd
    simp [sys_socket, hd]
  · intro hd ht
    obtain ⟨af, haf⟩ := Option.ne_none_iff_exists'.mp hd
    simp [sys_socket, haf, ht]
  · intro hd ht hp
    obtain ⟨af, haf⟩ := Option.ne_none_iff_exists'.mp hd
    obtain ⟨st, hst⟩ := Option.ne_none_iff_exists'.mp ht
    simp [sys_socket, haf, hst, hp]

/-- Witness for C8 amended at concrete inputs: unsupported domain 99,
unsupported kind 9 under AF_INET, and protocol 5 under AF_INET with
SOCK_STREAM. -/
theorem socket_create_validation_amended_witness :
    sys_socket okHost 99 1 0 = (- EAFNOSUPPORT, [], none) ∧
    sys_socket okHost LINUX_AF_INET 9 0 = (- EPROTONOSUPPORT, [], none) ∧
    sys_socket okHost LINUX_AF_INET LINUX_SOCK_STREAM 5 =
      (- EPROTONOSUPPORT, [], none) :=
  ⟨(socket_create_validation_amended okHost 99 1 0).1 (by decide),
   (socket_create_validation_amended okHost LINUX_AF_INET 9 0).2.1
     (by decide) (by decide),
   (socket_create_validation_amended okHost LINUX_AF_INET LINUX_SOCK_STREAM 5).2.2
     (by decide) (by decide) (by decide)⟩

theorem sendmmsg_loop_all_sent (send : Nat → Int) :
    ∀ (vec : List mmsghdr) (i : Nat),
      (∀ j (hj : j < vec.length),
        0 < send (i + j) ∧ send (i + j) = iov_total (vec.get ⟨j, hj⟩).msg_hdr) →
      (sendmmsg_loop send i vec).1 = ((i + vec.length : Nat) : Int) := by
  intro vec
  induction vec with
  | nil =>
    intro i h
    simp [sendmmsg_loop]
  | cons m rest ih =>
    intro i h
    have h0 := h 0 (Nat.succ_pos rest.length)
    rw [Nat.add_zero] at h0
    obtain ⟨hpos, heq⟩ := h0
    have heq' : send i = iov_total m.msg_hdr := heq
    have h' : ∀ j (hj : j < rest.length),
        0 < send (i + 1 + j) ∧
        send (i + 1 + j) = iov_total (rest.get ⟨j, hj⟩).msg_hdr := by
      intro j hj
      have hidx : i + 1 + j = i + (j + 1) := by omega
      rw [hidx]
      exact h (j + 1) (Nat.succ_lt_succ hj)
    simp only [sendmmsg_loop]
    rw [if_neg (by rintro ⟨-, hlt⟩; omega),
      if_neg (by rintro ⟨-, hz⟩; omega),
      if_neg (by omega),
      if_neg (by omega)]
    simp only []
    rw [ih (i + 1) h']
    have : i + 1 + rest.length = i + (m :: rest).length := by
      simp [List.length_cons]; omega
    omega

theorem sendmmsg_loop_stop_fail (send : Nat → Int) :
    ∀ (vec : List mmsghdr) (i k : Nat) (hk : k < vec.length),
      0 < i + k →
      (∀ j (hj : j < k),
        0 < send (i + j) ∧
        send (i + j) = iov_total (vec.get ⟨j, Nat.lt_trans hj hk⟩).msg_hdr) →
      send (i + k) ≤ 0 →
      (sendmmsg_loop send i vec).1 = ((i + k : Nat) : Int) := by
  intro vec
  induction vec with
  | nil => intro i k hk; exact absurd hk (by simp)
  | cons m rest ih =>
    intro i k hk hpos hpre hfail
    cases k with
    | zero =>
      rw [Nat.add_zero] at hfail hpos ⊢
      simp only [sendmmsg_loop]
      rw [if_neg (by rintro ⟨hi0, -⟩; omega),
        if_neg (by rintro ⟨hi0, -⟩; omega),
        if_pos hfail]
    | succ k' =>
      have h0 := hpre 0 (Nat.succ_pos k')
      rw [Nat.add_zero] at h0
      obtain ⟨hpos0, heq0⟩ := h0
      have heq0' : send i = iov_total m.msg_hdr := heq0
      have hk' : k' < rest.length := Nat.lt_of_succ_lt_succ hk
      have hpre' : ∀ j (hj : j < k'),
          0 < send (i + 1 + j) ∧
          send (i + 1 + j) = iov_total (rest.get ⟨j, Nat.lt_trans hj hk'⟩).msg_hdr := by
        intro j hj
        have hidx : i + 1 + j = i + (j + 1) := by omega
        rw [hidx]
        exact hpre (j + 1) (Nat.succ_lt_succ hj)
      have hfail' : send (i + 1 + k') ≤ 0 := by
        have hidx : i + 1 + k' = i + (k' + 1) := by omega
        rw [hidx]
        exact hfail
      simp only [sendmmsg_loop]
      rw [if_neg (by rintro ⟨-, hlt⟩; omega),
        if_neg (by rintro ⟨-, hz⟩; omega),
        if_neg (by omega),
        if_neg (by omega)]
      simp only []
      rw [ih (i + 1) k' hk' (by omega) hpre' hfail']
      omega

theorem sendmmsg_loop_stop_short (send : Nat → Int) :
    ∀ (vec : List mmsghdr) (i k : Nat) (hk : k < vec.length),
      (∀ j (hj : j < k),
        0 < send (i + j) ∧
        send (i + j) = iov_total (vec.get ⟨j, Nat.lt_trans hj hk⟩).msg_hdr) →
      0 < send (i + k) →
      send (i + k) < iov_total (vec.get ⟨k, hk⟩).msg_hdr →
      (sendmmsg_loop send i vec).1 = ((i + k + 1 : Nat) : Int) := by
  intro vec
  induction vec with
  | nil => intro i k hk; exact absurd hk (by simp)
  | cons m rest ih =>
    intro i k hk hpre hsent hpart
    cases k with
    | zero =>
      rw [Nat.add_zero] at hsent hpart ⊢
      have hpart' : send i < iov_total m.msg_hdr := hpart
      simp only [sendmmsg_loop]
      rw [if_neg (by rintro ⟨-, hlt⟩; omega),
        if_neg (by rintro ⟨-, hz⟩; omega),
        if_neg (by omega),
        if_pos hpart']
      simp only []
      omega
    | succ k' =>
      have h0 := hpre 0 (Nat.succ_pos k')
      rw [Nat.add_zero] at h0
      obtain ⟨hpos0, heq0⟩ := h0
      have heq0' : send i = iov_total m.msg_hdr := heq0
      have hk' : k' < rest.length := Nat.lt_of_succ_lt_succ hk
      have hpre' : ∀ j (hj : j < k'),
          0 < send (i + 1 + j) ∧
          send (i + 1 + j) = iov_total (rest.get ⟨j, Nat.lt_trans hj hk'⟩).msg_hdr := by
        intro j hj
        have hidx : i + 1 + j = i + (j + 1) := by omega
        rw [hidx]
        exact hpre (j + 1) (Nat.succ_lt_succ hj)
      have hidx : i + 1 + k' = i + (k' + 1) := by omega
      have hsent' : 0 < send (i + 1 + k') := by rw [hidx]; exact hsent
      have hpart' : send (i + 1 + k') <
          iov_total (rest.get ⟨k', hk'⟩).msg_hdr := by
        rw [hidx]
        exact hpart
      simp only [sendmmsg_loop]
      rw [if_neg (by rintro ⟨-, hlt⟩; omega),
        if_neg (by rintro ⟨-, hz⟩; omega),
        if_neg (by omega),
        if_neg (by omega)]
      simp only []
      rw [ih (i + 1) k' hk' hpre' hsent' hpart']
      omega

theorem sys_sendmmsg_valid (cr cw : Nat → Nat → Bool) (addr : Nat)
    (vec : List mmsghdr) (send : Nat → Int)
    (hcw : cw addr (sizeof_mmsghdr * vec.length) = true)
    (hchk : check_msgvec cr addr vec = true) :
    sys_sendmmsg cr cw addr vec none send = sendmmsg_loop send 0 vec := by
  simp [sys_sendmmsg, hcw, hchk]

def crAll : Nat → Nat → Bool := fun _ _ => true
def cwAll : Nat → Nat → Bool := fun _ _ => true
def cwNone : Nat → Nat → Bool := fun _ _ => false
def crBad2 : Nat → Nat → Bool := fun b _ => b != 2000
def send5 : Nat → Int := fun _ => 5
def send0 : Nat → Int := fun _ => 0
def sendFail3rd : Nat → Int := fun i => if i < 2 then 5 else (-1)
def sendPart3rd : Nat → Int := fun i => if i < 2 then 5 else 2

/-- Three single-segment messages of five bytes each, with header structs at
guest address 100, iovec arrays at 500, 600, 700 and data buffers at 1000,
2000, 3000. -/
def vec3 : List mmsghdr :=
  [⟨⟨0, 0, 500, [⟨1000, 5⟩], 0, 0⟩, 0⟩,
   ⟨⟨0, 0, 600, [⟨2000, 5⟩], 0, 0⟩, 0⟩,
   ⟨⟨0, 0, 700, [⟨3000, 5⟩], 0, 0⟩, 0⟩]

/-- vec3 after a fully successful sendmmsg: every msg_len set to 5. -/
def vec3sent : List mmsghdr :=
  [⟨⟨0, 0, 500, [⟨1000, 5⟩], 0, 0⟩, 5⟩,
   ⟨⟨0, 0, 600, [⟨2000, 5⟩], 0, 0⟩, 5⟩,
   ⟨⟨0, 0, 700, [⟨3000, 5⟩], 0, 0⟩, 5⟩]

/-- Counterexample to C2 as stated: with the 2nd message's data buffer
unreadable, sys_sendmmsg returns -EFAULT from the up-front validation loop,
not the prefix count 1 the claim asserts. -/
theorem sendmmsg_bad_second_buffer_counterexample :
    sys_sendmmsg crBad2 cwAll 100 vec3 none send5 = (- EFAULT, vec3) ∧
    (- EFAULT : Int) ≠ 1 :=
  ⟨by decide, by decide⟩

/-- C2 amended: on a vector that passes validation, three (indeed any
number of) independently valid fully-sent messages yield the full count;
a vector with an unreadable entry (such as the 2nd message's buffer) fails
the up-front validation and returns -EFAULT before anything is sent; and
for any message beyond the first, a send that fails or transfers nothing
stops with the count of fully processed messages, while a partial send is
counted as processed and stops with index plus one. -/
theorem sendmmsg_counting_amended :
    (∀ (cr cw : Nat → Nat → Bool) (addr : Nat) (vec : List mmsghdr)
      (send : Nat → Int),
      cw addr (sizeof_mmsghdr * vec.length) = true →
      check_msgvec cr addr vec = true →
      (∀ j (hj : j < vec.length),
        0 < send j ∧ send j = iov_total (vec.get ⟨j, hj⟩).msg_hdr) →
      (sys_sendmmsg cr cw addr vec none send).1 = (vec.length : Int)) ∧
    sys_sendmmsg crAll cwAll 100 vec3 none send5 = (3, vec3sent) ∧
    (∀ (cr cw : Nat → Nat → Bool) (addr : Nat) (vec : List mmsghdr)
      (send : Nat → Int),
      cw addr (sizeof_mmsghdr * vec.length) = true →
      check_msgvec cr addr vec = false →
      sys_sendmmsg cr cw addr vec none send = (- EFAULT, vec)) ∧
    (∀ (cr cw : Nat → Nat → Bool) (addr : Nat) (vec : List mmsghdr)
      (send : Nat → Int) (k : Nat) (hk : k < vec.length),
      cw addr (sizeof_mmsghdr * vec.length) = true →
      check_msgvec cr addr vec = true →
      0 < k →
      (∀ j (hj : j < k),
        0 < send j ∧
        send j = iov_total (vec.get ⟨j, Nat.lt_trans hj hk⟩).msg_hdr) →
      send k ≤ 0 →
      (sys_sendmmsg cr cw addr vec none send).1 = (k : Int)) ∧
    (∀ (cr cw : Nat → Nat → Bool) (addr : Nat) (vec : List mmsghdr)
      (send : Nat → Int) (k : Nat) (hk : k < vec.length),
      cw addr (sizeof_mmsghdr * vec.length) = true →
      check_msgvec cr addr vec = true →
      0 < k →
      (∀ j (hj : j < k),
        0 < send j ∧
        send j = iov_total (vec.get ⟨j, Nat.lt_trans hj hk⟩).msg_hdr) →
      0 < send k → send k < iov_total (vec.get ⟨k, hk⟩).msg_hdr →
      (sys_sendmmsg cr cw addr vec none send).1 = (k : Int) + 1) := by
  refine ⟨?_, by decide, ?_, ?_, ?_⟩
  · intro cr cw addr vec send hcw hchk h
    rw [sys_sendmmsg_valid cr cw addr vec send hcw hchk]
    rw [sendmmsg_loop_all_sent send vec 0
      (fun j hj => by rw [Nat.zero_add]; exact h j hj)]
    omega
  · intro cr cw addr vec send hcw hchk
    simp [sys_sendmmsg, hcw, hchk]
  · intro cr cw addr vec send k hk hcw hchk hk0 hpre hfail
    rw [sys_sendmmsg_valid cr cw addr vec send hcw hchk]
    rw [sendmmsg_loop_stop_fail send vec 0 k hk (by omega)
      (fun j hj => by rw [Nat.zero_add]; exact hpre j hj)
      (by rw [Nat.zero_add]; exact hfail)]
    omega
  · intro cr cw addr vec send k hk hcw hchk hk0 hpre hsent hpart
    rw [sys_sendmmsg_valid cr cw addr vec send hcw hchk]
    rw [sendmmsg_loop_stop_short send vec 0 k hk
      (fun j hj => by rw [Nat.zero_add]; exact hpre j hj)
      (by rw [Nat.zero_add]; exact hsent)
      (by rw [Nat.zero_add]; exact hpart)]
    omega

/-- Witness for C2 amended, applying each universally quantified part at
concrete inputs: full send of vec3 counts 3; an unreadable entry returns
-EFAULT; a hard failure on the 3rd message counts 2; a partial 3rd message
counts 3. -/
theorem sendmmsg_counting_amended_witness :
    (sys_sendmmsg crAll cwAll 100 vec3 none send5).1 = (vec3.length : Int) ∧
    sys_sendmmsg crBad2 cwAll 100 vec3 none send5 = (- EFAULT, vec3) ∧
    (sys_sendmmsg crAll cwAll 100 vec3 none sendFail3rd).1 = (2 : Int) ∧
    (sys_sendmmsg crAll cwAll 100 vec3 none sendPart3rd).1 = (2 : Int) + 1 :=
  ⟨sendmmsg_counting_amended.1 crAll cwAll 100 vec3 send5 (by decide) (by decide)
      (by
        intro j hj
        have hj3 : j < 3 := hj
        interval_cases j <;> exact ⟨by decide, rfl⟩),
   sendmmsg_counting_amended.2.2.1 crBad2 cwAll 100 vec3 send5 (by decide)
      (by decide),
   sendmmsg_counting_amended.2.2.2.1 crAll cwAll 100 vec3 sendFail3rd 2
      (by decide) (by decide) (by decide) (by decide)
      (by
        intro j hj
        interval_cases j <;> exact ⟨by decide, rfl⟩)
      (by decide),
   sendmmsg_counting_amended.2.2.2.2 crAll cwAll 100 vec3 sendPart3rd 2
      (by decide) (by decide) (by decide) (by decide)
      (by
        intro j hj
        interval_cases j <;> exact ⟨by decide, rfl⟩)
      (by decide) (by decide)⟩

/-- C10: a first message that is sent successfully but transfers zero bytes
makes sendmmsg return -EWOULDBLOCK rather than the count 1, so it is
indistinguishable from a would-block condition at the public interface. -/
theorem sendmmsg_zero_byte_first_send :
    ∀ (cr cw : Nat → Nat → Bool) (addr : Nat) (m : mmsghdr)
      (rest : List mmsghdr) (send : Nat → Int),
      cw addr (sizeof_mmsghdr * (m :: rest).length) = true →
      check_msgvec cr addr (m :: rest) = true →
      send 0 = 0 →
      (sys_sendmmsg cr cw addr (m :: rest) none send).1 = - EWOULDBLOCK := by
  intro cr cw addr m rest send hcw hchk hz
  rw [sys_sendmmsg_valid cr cw addr (m :: rest) send hcw hchk]
  simp only [sendmmsg_loop]
  rw [if_neg (by rintro ⟨-, hlt⟩; omega), if_pos ⟨trivial, hz⟩]

/-- Witness for C10 at a concrete vector whose first send returns zero. -/
theorem sendmmsg_zero_byte_first_send_witness :
    (sys_sendmmsg crAll cwAll 100 vec3 none send0).1 = - EWOULDBLOCK :=
  sendmmsg_zero_byte_first_send crAll cwAll 100
    ⟨⟨0, 0, 500, [⟨1000, 5⟩], 0, 0⟩, 0⟩
    [⟨⟨0, 0, 600, [⟨2000, 5⟩], 0, 0⟩, 0⟩, ⟨⟨0, 0, 700, [⟨3000, 5⟩], 0, 0⟩, 0⟩]
    send0 (by decide) (by decide) rfl

theorem sendmmsg_loop_frame (send : Nat → Int) :
    ∀ (vec : List mmsghdr) (i : Nat) (r : Int) (out : List mmsghdr),
      sendmmsg_loop send i vec = (r, out) →
      out.length = vec.length ∧
      (∀ j (hj : j < out.length) (hv : j < vec.length),
        (out.get ⟨j, hj⟩).msg_hdr = (vec.get ⟨j, hv⟩).msg_hdr) ∧
      (∀ j (hj : j < out.length),
        ((i + j : Nat) : Int) < r →
        (out.get ⟨j, hj⟩).msg_len = (send (i + j)).toNat) := by
  intro vec
  induction vec with
  | nil =>
    intro i r out hEq
    simp only [sendmmsg_loop] at hEq
    injection hEq with hr hout
    subst hr
    subst hout
    exact ⟨rfl, fun j hj hv => rfl, fun j hj => absurd hj (by simp)⟩
  | cons m rest ih =>
    intro i r out hEq
    simp only [sendmmsg_loop] at hEq
    split_ifs at hEq with h1 h2 h3 h4
    · injection hEq with hr hout
      subst hr
      subst hout
      refine ⟨rfl, fun j hj hv => rfl, fun j hj hlt => ?_⟩
      obtain ⟨-, hneg⟩ := h1
      exact absurd hlt (by omega)
    · injection hEq with hr hout
      subst hr
      subst hout
      refine ⟨rfl, fun j hj hv => rfl, fun j hj hlt => ?_⟩
      have hE : (- EWOULDBLOCK : Int) = -11 := rfl
      exact absurd hlt (by omega)
    · injection hEq with hr hout
      subst hr
      subst hout
      refine ⟨rfl, fun j hj hv => rfl, fun j hj hlt => ?_⟩
      exact absurd hlt (by omega)
    · injection hEq with hr hout
      subst hr
      subst hout
      refine ⟨rfl, fun j hj hv => ?_, fun j hj hlt => ?_⟩
      · cases j <;> rfl
      · cases j with
        | zero => rfl
        | succ jj => exact absurd hlt (by omega)
    · injection hEq with hr hout
      subst hr
      subst hout
      obtain ⟨ihL, ihH, ihM⟩ := ih (i + 1)
        (sendmmsg_loop send (i + 1) rest).1 (sendmmsg_loop send (i + 1) rest).2 rfl
      refine ⟨?_, fun j hj hv => ?_, fun j hj hlt => ?_⟩
      · simp only [List.length_cons, ihL]
      · cases j with
        | zero => rfl
        | succ jj =>
          exact ihH jj (Nat.lt_of_succ_lt_succ hj) (Nat.lt_of_succ_lt_succ hv)
      · cases j with
        | zero => rfl
        | succ jj =>
          have hidx : i + (jj + 1) = i + 1 + jj := by omega
          rw [hidx] at hlt ⊢
          exact ihM jj (Nat.lt_of_succ_lt_succ hj) hlt

/-- C9: frame effects of sendmmsg.  The whole message vector must be
writable guest memory even though the messages themselves are only read
(an unwritable vector returns the memory-fault error with the vector
untouched), and on a vector that passes validation the operation leaves
every msg_hdr unchanged, preserves the vector length, and writes the
transferred byte count into the msg_len field of exactly the messages it
counts as processed. -/
theorem sendmmsg_frame_effects :
    (∀ (cr cw : Nat → Nat → Bool) (addr : Nat) (vec : List mmsghdr)
      (resolve_err : Option Int) (send : Nat → Int),
      cw addr (sizeof_mmsghdr * vec.length) = false →
      sys_sendmmsg cr cw addr vec resolve_err send = (- EFAULT, vec)) ∧
    (∀ (cr cw : Nat → Nat → Bool) (addr : Nat) (vec : List mmsghdr)
      (send : Nat → Int),
      cw addr (sizeof_mmsghdr * vec.length) = true →
      check_msgvec cr addr vec = true →
      ((sys_sendmmsg cr cw addr vec none send).2.length = vec.length ∧
       (∀ j (hj : j < (sys_sendmmsg cr cw addr vec none send).2.length)
          (hv : j < vec.length),
         ((sys_sendmmsg cr cw addr vec none send).2.get ⟨j, hj⟩).msg_hdr =
           (vec.get ⟨j, hv⟩).msg_hdr) ∧
       (∀ j (hj : j < (sys_sendmmsg cr cw addr vec none send).2.length),
         ((j : Nat) : Int) < (sys_sendmmsg cr cw addr vec none send).1 →
         ((sys_sendmmsg cr cw addr vec none send).2.get ⟨j, hj⟩).msg_len =
           (send j).toNat))) := by
  constructor
  · intro cr cw addr vec resolve_err send hcw
    simp [sys_sendmmsg, hcw]
  · intro cr cw addr vec send hcw hchk
    rw [sys_sendmmsg_valid cr cw addr vec send hcw hchk]
    obtain ⟨hL, hH, hM⟩ := sendmmsg_loop_frame send vec 0
      (sendmmsg_loop send 0 vec).1 (sendmmsg_loop send 0 vec).2 rfl
    refine ⟨hL, hH, fun j hj hlt => ?_⟩
    have := hM j hj (by rw [Nat.zero_add]; exact hlt)
    rw [Nat.zero_add] at this
    exact this

/-- Witness for C9: an unwritable vector faults with the vector unchanged,
and a validated full send preserves the vector length. -/
theorem sendmmsg_frame_effects_witness :
    sys_sendmmsg crAll cwNone 100 vec3 none send5 = (- EFAULT, vec3) ∧
    (sys_sendmmsg crAll cwAll 100 vec3 none send5).2.length = vec3.length :=
  ⟨sendmmsg_frame_effects.1 crAll cwNone 100 vec3 none send5 rfl,
   (sendmmsg_frame_effects.2 crAll cwAll 100 vec3 send5 rfl (by decide)).1⟩
